import Mathlib

/-!
Verification development for a terminal calendar viewer written in Rust.

We give a shallow embedding of the program's data model and operations:

* `src/tui/state.rs` — navigation state (`AppState`), date windows
  (`DateRange.five_month_span`, `DateRange.twenty_five_month_span`,
  `DateRange.last_day_of_month`), event-cache eviction
  (`trim_events_to_25_month_span`), and event-selection cycling.
* `src/tui/input.rs` — key routing (`handle_key_event` and the three
  focus-scoped handlers).
* `src/calendar/client.rs` — the paginated listing loops and the
  refresh-and-retry-once token protocol (`with_token_refresh`,
  `refresh_access_token`).
* `src/tui/fetcher.rs` — the per-window data fetch (`fetch_calendar_data`).

External collaborators (the `chrono` date library, the HTTP layer, the OAuth
token endpoint, the credential file) are modelled explicitly: dates are a
`year/month/day` record with `chrono`'s documented validity range and
day-counting arithmetic, and every fallible external interaction is an input
of the embedded function (a response value, or `none`/`Except.error` for a
failed call).  Rust panics are modelled by `Option`: a function that can
panic returns `none` exactly on the panicking inputs.

`HashMap<NaiveDate, Vec<Event>>` is modelled as an association list with at
most one entry per key (entry order is irrelevant to every property proved
here); `HashMap::remove` is key-filtering.
-/

namespace Oxidate

/-! ### Dates: model of `chrono::NaiveDate`

`chrono` restricts `NaiveDate` to years `-262144 ..= 262143`.  The record
itself does not enforce validity; `NaiveDate.isValid` states it, and the
constructors of the library model (`from_ymd_opt`, `pred_opt`, `ofDays`)
produce only valid dates.
-/

/-- Model of `chrono::NaiveDate`: a calendar date as year, month and day. -/
structure NaiveDate where
  year : Int
  month : Int
  day : Int
deriving DecidableEq, Repr

/-- Smallest year representable by `chrono::NaiveDate`. -/
def minYear : Int := -262144

/-- Largest year representable by `chrono::NaiveDate`. -/
def maxYear : Int := 262143

/-- Gregorian leap-year rule, as `chrono` implements it. -/
def isLeapYear (y : Int) : Bool := y % 4 == 0 && (y % 100 != 0 || y % 400 == 0)

/-- Number of days in a month (the month lengths used by `chrono`). -/
def daysInMonth (y m : Int) : Int :=
  if m = 2 then (if isLeapYear y then 29 else 28)
  else if m = 4 ∨ m = 6 ∨ m = 9 ∨ m = 11 then 30
  else 31

/-- A `year/month/day` triple is a real calendar date inside `chrono`'s range. -/
def NaiveDate.isValid (dt : NaiveDate) : Bool :=
  minYear ≤ dt.year && dt.year ≤ maxYear &&
  1 ≤ dt.month && dt.month ≤ 12 &&
  1 ≤ dt.day && dt.day ≤ daysInMonth dt.year dt.month

/-- Model of `NaiveDate::from_ymd_opt`: `some` exactly on valid dates. -/
def from_ymd_opt (y m d : Int) : Option NaiveDate :=
  if (NaiveDate.mk y m d).isValid then some ⟨y, m, d⟩ else none

/-- Model of `chrono`'s `Ord` on `NaiveDate` (chronological order, which on
valid dates is lexicographic on year, month, day): `a.ltb b` means `a < b`. -/
def NaiveDate.ltb (a b : NaiveDate) : Bool :=
  if a.year ≠ b.year then a.year < b.year
  else if a.month ≠ b.month then a.month < b.month
  else a.day < b.day

/-- Model of `NaiveDate::pred_opt`: the previous calendar day, or `none` at
the lower end of the representable range. -/
def NaiveDate.pred_opt (dt : NaiveDate) : Option NaiveDate :=
  if 1 < dt.day then some ⟨dt.year, dt.month, dt.day - 1⟩
  else if 1 < dt.month then some ⟨dt.year, dt.month - 1, daysInMonth dt.year (dt.month - 1)⟩
  else if minYear < dt.year then some ⟨dt.year - 1, 12, 31⟩
  else none

/-! #### Day numbers

`chrono` adds day offsets to a `NaiveDate` by converting to a day count and
back.  We model that with the standard civil-calendar conversion between a
date and its day number relative to 1970-01-01, written in the
century-then-Julian-year form so each step is pure integer arithmetic.
`toDays` and `ofDays` below are mutually inverse (`toDays_ofDays`), so the
pair is a faithful model of the day arithmetic underlying
`NaiveDate::checked_add_signed`. -/

/-- Day offset (from March 1 of year 0 of an era) of March 1 of year-of-era
`yoe`, for `yoe` in `0 ..= 399`. -/
def yearDays (yoe : Int) : Int := 365 * yoe + yoe / 4 - yoe / 100

/-- Day-of-March-based-year of the first day of shifted month `mp`
(`mp = 0` is March, …, `mp = 11` is February). -/
def monthDays (mp : Int) : Int := (153 * mp + 2) / 5

/-- The 400-year era containing day number `z` (eras count from 0000-03-01). -/
def eraOf (z : Int) : Int := (z + 719468) / 146097

/-- Day-of-era of day number `z`, in `0 ..= 146096`. -/
def doeOf (z : Int) : Int := z + 719468 - eraOf z * 146097

/-- Year-of-era of day-of-era `doe`: the century is `(4 * doe + 3) / 146097`
and the year within the century is Julian. -/
def yoeOf (doe : Int) : Int :=
  100 * ((4 * doe + 3) / 146097) + (4 * (doe - 36524 * ((4 * doe + 3) / 146097)) + 3) / 1461

/-- Day-of-year (March-based) of day-of-era `doe`. -/
def doyOf (doe : Int) : Int := doe - yearDays (yoeOf doe)

/-- Shifted month of a March-based day-of-year. -/
def mpOf (doy : Int) : Int := (5 * doy + 2) / 153

/-- Day number of a date (days since 1970-01-01). -/
def NaiveDate.toDays (dt : NaiveDate) : Int :=
  let y := if dt.month ≤ 2 then dt.year - 1 else dt.year
  let era := y / 400
  let yoe := y - era * 400
  let mp := if 2 < dt.month then dt.month - 3 else dt.month + 9
  era * 146097 + yearDays yoe + monthDays mp + dt.day - 1 - 719468

/-- Date with day number `z` (inverse of `NaiveDate.toDays`). -/
def NaiveDate.ofDays (z : Int) : NaiveDate :=
  let doe := doeOf z
  let mp := mpOf (doyOf doe)
  let m := if mp < 10 then mp + 3 else mp - 9
  ⟨if m ≤ 2 then yoeOf doe + eraOf z * 400 + 1 else yoeOf doe + eraOf z * 400,
   m, doyOf doe - monthDays mp + 1⟩

/-- Day number of the smallest representable date, `minYear-01-01`. -/
def minDays : Int := NaiveDate.toDays ⟨minYear, 1, 1⟩

/-- Day number of the largest representable date, `maxYear-12-31`. -/
def maxDays : Int := NaiveDate.toDays ⟨maxYear, 12, 31⟩

/-- Model of `NaiveDate::checked_add_signed` applied to a whole-day duration:
shift the day number, converting back when the result stays representable and
returning `none` otherwise. -/
def NaiveDate.checked_add_signed (dt : NaiveDate) (n : Int) : Option NaiveDate :=
  let k := dt.toDays + n
  if minDays ≤ k ∧ k ≤ maxDays then some (NaiveDate.ofDays k) else none

/-- Largest day count accepted by `chrono::Duration::days` (also called
`TimeDelta::days`): the duration type is bounded by `i64::MAX` milliseconds,
so `days` panics when `|days| > i64::MAX / 86_400_000 = 106751991167`. -/
def timeDeltaDaysMax : Int := 106751991167

/-! #### Inverse property of the day-number conversion -/

/-- Within a 4-year-free span of 36524-or-fewer days, the Julian year
extraction `(4 * R + 3) / 1461` lands in `0 ..= 99` and leaves a day-of-year
in `0 ..= 365`. -/
theorem julian_year_bounds (R : Int) (h0 : 0 ≤ R) (h1 : R ≤ 36524) :
    0 ≤ (4 * R + 3) / 1461 ∧ (4 * R + 3) / 1461 ≤ 99 ∧
    0 ≤ R - (365 * ((4 * R + 3) / 1461) + ((4 * R + 3) / 1461) / 4) ∧
    R - (365 * ((4 * R + 3) / 1461) + ((4 * R + 3) / 1461) / 4) ≤ 365 := by
  omega

/-- Splitting `yearDays` along the century decomposition of a year-of-era. -/
theorem yearDays_century (C yoc : Int) (hy0 : 0 ≤ yoc) (hy1 : yoc ≤ 99) :
    yearDays (100 * C + yoc) = 36524 * C + 365 * yoc + yoc / 4 := by
  unfold yearDays
  omega

/-- The year-of-era and day-of-year extracted from a day-of-era are in range. -/
theorem yoe_doy_bounds (doe : Int) (h0 : 0 ≤ doe) (h1 : doe ≤ 146096) :
    0 ≤ yoeOf doe ∧ yoeOf doe ≤ 399 ∧ 0 ≤ doyOf doe ∧ doyOf doe ≤ 365 := by
  have hC : 0 ≤ (4 * doe + 3) / 146097 ∧ (4 * doe + 3) / 146097 ≤ 3 ∧
      0 ≤ doe - 36524 * ((4 * doe + 3) / 146097) ∧
      doe - 36524 * ((4 * doe + 3) / 146097) ≤ 36524 := by omega
  have hj := julian_year_bounds (doe - 36524 * ((4 * doe + 3) / 146097)) hC.2.2.1 hC.2.2.2
  have hd := yearDays_century ((4 * doe + 3) / 146097)
    ((4 * (doe - 36524 * ((4 * doe + 3) / 146097)) + 3) / 1461) hj.1 hj.2.1
  unfold doyOf yoeOf
  omega

/-- The shifted month extracted from a day-of-year is in range and its first
day is at most that day-of-year. -/
theorem month_of_doy_bounds (doy : Int) (h0 : 0 ≤ doy) (h1 : doy ≤ 365) :
    0 ≤ mpOf doy ∧ mpOf doy ≤ 11 ∧ monthDays (mpOf doy) ≤ doy ∧
    doy - monthDays (mpOf doy) ≤ 30 := by
  unfold mpOf monthDays
  omega

/-- Applying `toDays` undoes the era/year/month/day decomposition used by `ofDays`. -/
theorem toDays_decomp (era yoe mp doy : Int)
    (hy0 : 0 ≤ yoe) (hy1 : yoe ≤ 399) (hp0 : 0 ≤ mp) (hp1 : mp ≤ 11) :
    NaiveDate.toDays
      ⟨if (if mp < 10 then mp + 3 else mp - 9) ≤ 2 then yoe + era * 400 + 1 else yoe + era * 400,
       if mp < 10 then mp + 3 else mp - 9,
       doy - monthDays mp + 1⟩
      = era * 146097 + yearDays yoe + doy - 719468 := by
  unfold NaiveDate.toDays yearDays monthDays
  dsimp only
  split_ifs <;> ring_nf <;> omega

/-- The day-number conversion is a section: converting a day number to a date
and back is the identity. -/
theorem toDays_ofDays (z : Int) : (NaiveDate.ofDays z).toDays = z := by
  have h0 : 0 ≤ doeOf z ∧ doeOf z ≤ 146096 := by unfold doeOf eraOf; omega
  have hy := yoe_doy_bounds (doeOf z) h0.1 h0.2
  have hm := month_of_doy_bounds (doyOf (doeOf z)) hy.2.2.1 hy.2.2.2
  have hr := toDays_decomp (eraOf z) (yoeOf (doeOf z)) (mpOf (doyOf (doeOf z)))
    (doyOf (doeOf z)) hy.1 hy.2.1 hm.1 hm.2.1
  unfold NaiveDate.ofDays
  dsimp only
  rw [hr]
  unfold doyOf doeOf eraOf
  omega

/-! ### Domain records: model of `src/calendar/models.rs` -/

/-- Model of `models::Attendee`. -/
structure Attendee where
  email : String
  display_name : Option String
  response_status : Option String
  optional : Option Bool
deriving DecidableEq, Repr

/-- Model of `models::EventDateTime` (both timestamp fields are the raw
strings the service returned; parsing happens in the fetcher). -/
structure EventDateTime where
  date_time : Option String
  date : Option String
  time_zone : Option String
deriving DecidableEq, Repr

/-- Model of `models::Event`; the source field `end` is `end_` here. -/
structure Event where
  id : String
  summary : Option String
  description : Option String
  location : Option String
  start : EventDateTime
  end_ : EventDateTime
  status : Option String
  html_link : Option String
  attendees : Option (List Attendee)
deriving DecidableEq, Repr

/-- Model of `models::Calendar`. -/
structure Calendar where
  id : String
  summary : String
  primary : Bool
  time_zone : String
  access_role : String
  background_color : Option String
  description : Option String
deriving DecidableEq, Repr

/-- One page of a paginated listing: `models::CalendarListResponse` and
`models::EventsListResponse` both have exactly this shape (an item list plus
an optional continuation token). -/
structure PageResponse (α : Type) where
  items : List α
  next_page_token : Option String
deriving DecidableEq, Repr

/-! ### Navigation state: model of `src/tui/state.rs` -/

/-- Model of `state::ViewFocus`. -/
inductive ViewFocus where
  | Calendar
  | Events
deriving DecidableEq, Repr

/-- Model of `state::EventsViewMode`. -/
inductive EventsViewMode where
  | List
  | Details (event_index : Nat)
deriving DecidableEq, Repr

/-- Model of `state::DateRange`; the source field `end` is `end_` here. -/
structure DateRange where
  start : NaiveDate
  end_ : NaiveDate
deriving DecidableEq, Repr

/-- Model of `state::AppState`.  The event index
`HashMap<NaiveDate, Vec<Event>>` is an association list. -/
structure AppState where
  selected_date : NaiveDate
  today : NaiveDate
  calendars : List Calendar
  events : List (NaiveDate × List Event)
  loading : Bool
  error : Option String
  view_focus : ViewFocus
  selected_event_index : Option Nat
  events_view_mode : EventsViewMode
  current_date_range : DateRange
  current_month : Int × Int
deriving DecidableEq, Repr

/-- Model of `AppState::get_events_for_date` (`HashMap::get`, defaulting to
the empty vector). -/
def get_events_for_date (st : AppState) (date : NaiveDate) : List Event :=
  match st.events.find? (fun kv => decide (kv.1 = date)) with
  | some kv => kv.2
  | none => []

/-- Model of `AppState::move_selected_date`.  The source builds
`chrono::Duration::days(days)`, which panics (modelled as `none`) when
`|days| > timeDeltaDaysMax`, then `checked_add_signed`, keeping the old date
when the shifted day number leaves the representable range. -/
def move_selected_date (st : AppState) (days : Int) : Option AppState :=
  if days < -timeDeltaDaysMax ∨ timeDeltaDaysMax < days then none
  else some (match st.selected_date.checked_add_signed days with
             | some new_date => { st with selected_date := new_date }
             | none => st)

/-- Model of `AppState::move_to_next_week`. -/
def move_to_next_week (st : AppState) : Option AppState := move_selected_date st 7

/-- Model of `AppState::move_to_prev_week`. -/
def move_to_prev_week (st : AppState) : Option AppState := move_selected_date st (-7)

/-- Model of `AppState::toggle_focus`. -/
def toggle_focus (st : AppState) : AppState :=
  { st with view_focus := match st.view_focus with
      | .Calendar => .Events
      | .Events => .Calendar }

/-- Model of `AppState::jump_to_today`. -/
def jump_to_today (st : AppState) : AppState := { st with selected_date := st.today }

/-- Model of `AppState::move_event_selection_down`. -/
def move_event_selection_down (st : AppState) : AppState :=
  let event_count := (get_events_for_date st st.selected_date).length
  if event_count = 0 then st
  else { st with selected_event_index := some (match st.selected_event_index with
    | none => 0
    | some idx => (idx + 1) % event_count) }

/-- Model of `AppState::move_event_selection_up`. -/
def move_event_selection_up (st : AppState) : AppState :=
  let event_count := (get_events_for_date st st.selected_date).length
  if event_count = 0 then st
  else { st with selected_event_index := some (match st.selected_event_index with
    | none => event_count - 1
    | some 0 => event_count - 1
    | some (Nat.succ idx) => idx) }

/-- Model of `AppState::select_event`. -/
def select_event (st : AppState) : AppState :=
  match st.selected_event_index with
  | some index => { st with events_view_mode := .Details index }
  | none => st

/-- Model of `AppState::exit_event_details`. -/
def exit_event_details (st : AppState) : AppState :=
  { st with events_view_mode := .List }

/-- Model of `AppState::reset_event_selection`. -/
def reset_event_selection (st : AppState) : AppState :=
  { st with selected_event_index := none, events_view_mode := .List }

/-- Model of `DateRange::last_day_of_month`: first day of the next month,
then one day back.  The source unwraps both library calls; `none` models the
panic on an unrepresentable year. -/
def DateRange.last_day_of_month (year month : Int) : Option NaiveDate :=
  let nxt := if month = 12 then (year + 1, 1) else (year, month + 1)
  match from_ymd_opt nxt.1 nxt.2 1 with
  | none => none
  | some first_of_next => first_of_next.pred_opt

/-- Model of `DateRange::five_month_span`: first day of the month two months
before, through last day of the month two months after, with the source's
explicit year-boundary branches. -/
def DateRange.five_month_span (center_date : NaiveDate) : Option DateRange :=
  let startOpt :=
    if center_date.month ≤ 2 then
      from_ymd_opt (center_date.year - 1) (center_date.month + 10) 1
    else
      from_ymd_opt center_date.year (center_date.month - 2) 1
  match startOpt with
  | none => none
  | some start =>
    let endOpt :=
      if 11 ≤ center_date.month then
        DateRange.last_day_of_month (center_date.year + 1) (center_date.month - 10)
      else
        DateRange.last_day_of_month center_date.year (center_date.month + 2)
    match endOpt with
    | none => none
    | some e => some ⟨start, e⟩

/-- Model of `DateRange::twenty_five_month_span`, including the source's dead
branches (`month ≤ 12` always holds, so the start is always month `month` of
the previous year, and the end is month `month` of the next year). -/
def DateRange.twenty_five_month_span (center_date : NaiveDate) : Option DateRange :=
  let s :=
    if center_date.month ≤ 12 then
      if center_date.month - 12 ≤ 0 then (center_date.year - 1, 12 + center_date.month - 12)
      else (center_date.year, center_date.month - 12)
    else (center_date.year, center_date.month)
  match from_ymd_opt s.1 s.2 1 with
  | none => none
  | some start =>
    let e :=
      if 12 < center_date.month + 12 then (center_date.year + 1, center_date.month + 12 - 12)
      else (center_date.year, center_date.month + 12)
    match DateRange.last_day_of_month e.1 e.2 with
    | none => none
    | some e2 => some ⟨start, e2⟩

/-- Model of `AppState::trim_events_to_25_month_span`: collect the keys that
are outside the 25-month cache range and not in the pinned `current_month`,
then remove them one by one. -/
def trim_events_to_25_month_span (st : AppState) : Option AppState :=
  match DateRange.twenty_five_month_span st.selected_date with
  | none => none
  | some cache_range =>
    let dates_to_remove : List NaiveDate :=
      (st.events.map Prod.fst).filter fun date =>
        if (date.year, date.month) = st.current_month then false
        else date.ltb cache_range.start || cache_range.end_.ltb date
    some { st with events :=
      dates_to_remove.foldl (fun m date => m.filter fun kv => decide (kv.1 ≠ date)) st.events }

/-! ### Input routing: model of `src/tui/input.rs`

The handlers return `Option` only to propagate the panic model of
`move_selected_date`; every key the router actually passes moves the date by
±1 or ±7 days, far inside `timeDeltaDaysMax`.  The `if`-chains mirror the
source's `match` arms in order. -/

/-- Model of `input::InputAction`. -/
inductive InputAction where
  | Quit
  | Refresh
  | None
deriving DecidableEq, Repr

/-- The key codes `input.rs` distinguishes; `Other` stands for every other
`crossterm` key code (all of which fall through to the catch-all arms). -/
inductive KeyCode where
  | Char (c : Char)
  | Tab
  | Esc
  | Enter
  | Left
  | Right
  | Up
  | Down
  | Other
deriving DecidableEq, Repr

/-- Model of `input::handle_calendar_input`. -/
def handle_calendar_input (key : KeyCode) (st : AppState) : Option (InputAction × AppState) :=
  if key = .Esc then some (.Quit, st)
  else if key = .Left ∨ key = .Char 'h' then
    (move_selected_date st (-1)).map fun st1 => (.None, reset_event_selection st1)
  else if key = .Right ∨ key = .Char 'l' then
    (move_selected_date st 1).map fun st1 => (.None, reset_event_selection st1)
  else if key = .Up ∨ key = .Char 'k' then
    (move_to_prev_week st).map fun st1 => (.None, reset_event_selection st1)
  else if key = .Down ∨ key = .Char 'j' then
    (move_to_next_week st).map fun st1 => (.None, reset_event_selection st1)
  else some (.None, st)

/-- Model of `input::handle_events_list_input`. -/
def handle_events_list_input (key : KeyCode) (st : AppState) : Option (InputAction × AppState) :=
  if key = .Esc then some (.Quit, st)
  else if key = .Up ∨ key = .Char 'k' then some (.None, move_event_selection_up st)
  else if key = .Down ∨ key = .Char 'j' then some (.None, move_event_selection_down st)
  else if key = .Enter then some (.None, select_event st)
  else some (.None, st)

/-- Model of `input::handle_events_details_input`. -/
def handle_events_details_input (key : KeyCode) (st : AppState) : Option (InputAction × AppState) :=
  if key = .Esc then some (.None, exit_event_details st)
  else some (.None, st)

/-- Model of `input::handle_events_input`. -/
def handle_events_input (key : KeyCode) (st : AppState) : Option (InputAction × AppState) :=
  match st.events_view_mode with
  | .List => handle_events_list_input key st
  | .Details _ => handle_events_details_input key st

/-- Model of `input::handle_key_event`: global keys first (quit, refresh,
jump-to-today, toggle focus), then focus-scoped dispatch. -/
def handle_key_event (key : KeyCode) (st : AppState) : Option (InputAction × AppState) :=
  if key = .Char 'q' then some (.Quit, st)
  else if key = .Char 'r' then some (.Refresh, st)
  else if key = .Char 't' then some (.None, jump_to_today st)
  else if key = .Tab then some (.None, toggle_focus st)
  else match st.view_focus with
    | .Calendar => handle_calendar_input key st
    | .Events => handle_events_input key st

/-! ### Credentials and API client: model of `src/auth/tokens.rs` and
`src/calendar/client.rs`

The HTTP layer, the OAuth token endpoint and the credential file are
external, so one run of a client operation is embedded as a function of an
explicit environment holding each external outcome, and the run's side
effects (token mutation, persisted pairs, calls made) are returned alongside
the `Result`. -/

/-- Whether an `Except` is a success. -/
def isOk {ε α : Type} : Except ε α → Bool
  | .ok _ => true
  | .error _ => false

/-- Model of `auth::Tokens`: the persisted access/refresh token pair. -/
structure Tokens where
  access_token : String
  refresh_token : String
deriving DecidableEq, Repr

/-- A successful response of the provider's token endpoint: a new access
token and, optionally, a new refresh token. -/
structure TokenEndpointResponse where
  access_token : String
  refresh_token : Option String
deriving DecidableEq, Repr

/-- Environment of one `refresh_access_token` run: the token-endpoint
outcome (`none` models a failed exchange) and whether `Tokens::save`
succeeds. -/
structure RefreshEnv where
  response : Option TokenEndpointResponse
  saveOk : Bool
deriving DecidableEq, Repr

/-- Outcome of `refresh_access_token`: the returned `Result`, the client's
in-memory token pair afterwards, and the token pairs successfully persisted
via `Tokens::save`, in order. -/
structure RefreshResult where
  result : Except String Unit
  tokens : Tokens
  saved : List Tokens

/-- Model of `CalendarClient::refresh_access_token`: exchange the refresh
token; on success overwrite the access token, replace the refresh token only
if the provider issued a new one, then persist the pair, failing if the save
fails (the in-memory pair stays updated either way). -/
def refresh_access_token (tokens : Tokens) (env : RefreshEnv) : RefreshResult :=
  match env.response with
  | none => ⟨.error "Failed to refresh access token", tokens, []⟩
  | some r =>
    let tokens1 := { tokens with access_token := r.access_token }
    let tokens2 := match r.refresh_token with
      | some new_refresh_token => { tokens1 with refresh_token := new_refresh_token }
      | none => tokens1
    if env.saveOk then ⟨.ok (), tokens2, [tokens2]⟩
    else ⟨.error "Failed to save refreshed tokens", tokens2, []⟩

/-- One HTTP response as `with_token_refresh` inspects it: the status code
and the result of decoding the body as JSON into `α` (`none` models a decode
failure). -/
structure HttpResponse (α : Type) where
  status : Nat
  decoded : Option α

/-- Environment of one `with_token_refresh` run: the outcome of the first
`api_call` (`none` models a transport error), the refresh environment, and
the outcome of the retried `api_call` (consulted only after a 401 and a
successful refresh). -/
structure CallEnv (α : Type) where
  first : Option (HttpResponse α)
  refresh : RefreshEnv
  retry : Option (HttpResponse α)

/-- Outcome of `with_token_refresh`: the returned `Result`, the in-memory
tokens afterwards, the number of refresh attempts, the number of `api_call`
invocations, the access token passed to each invocation in order, and the
persisted token pairs. -/
structure CallResult (α : Type) where
  result : Except String α
  tokens : Tokens
  refreshes : Nat
  apiCalls : Nat
  tokensUsed : List String
  saved : List Tokens

/-- Status test of `reqwest::Response::error_for_status`: client errors
(400–499) and server errors (500–599). -/
def isErrorStatus (status : Nat) : Bool := 400 ≤ status && status ≤ 599

/-- The status code `reqwest::StatusCode::UNAUTHORIZED`. -/
def unauthorized : Nat := 401

/-- Model of `CalendarClient::with_token_refresh`: call with the current
access token; on a 401 refresh once and retry once with the new token,
failing fatally if the retry is again a 401; any other error status or a
decode failure fails without refresh or retry. -/
def with_token_refresh {α : Type} (tokens : Tokens) (env : CallEnv α) : CallResult α :=
  match env.first with
  | none => ⟨.error "API call failed", tokens, 0, 1, [tokens.access_token], []⟩
  | some response =>
    if response.status = unauthorized then
      let rr := refresh_access_token tokens env.refresh
      match rr.result with
      | .error _ =>
        ⟨.error "Failed to refresh access token after 401", rr.tokens, 1, 1,
         [tokens.access_token], rr.saved⟩
      | .ok _ =>
        match env.retry with
        | none =>
          ⟨.error "API call failed on retry after token refresh", rr.tokens, 1, 2,
           [tokens.access_token, rr.tokens.access_token], rr.saved⟩
        | some retry_response =>
          if retry_response.status = unauthorized then
            ⟨.error "Still unauthorized after token refresh", rr.tokens, 1, 2,
             [tokens.access_token, rr.tokens.access_token], rr.saved⟩
          else if isErrorStatus retry_response.status then
            ⟨.error "API returned error status on retry", rr.tokens, 1, 2,
             [tokens.access_token, rr.tokens.access_token], rr.saved⟩
          else
            match retry_response.decoded with
            | some v =>
              ⟨.ok v, rr.tokens, 1, 2,
               [tokens.access_token, rr.tokens.access_token], rr.saved⟩
            | none =>
              ⟨.error "Failed to parse response JSON on retry", rr.tokens, 1, 2,
               [tokens.access_token, rr.tokens.access_token], rr.saved⟩
    else if isErrorStatus response.status then
      ⟨.error "API returned error status", tokens, 0, 1, [tokens.access_token], []⟩
    else
      match response.decoded with
      | some v => ⟨.ok v, tokens, 0, 1, [tokens.access_token], []⟩
      | none => ⟨.error "Failed to parse response JSON", tokens, 0, 1, [tokens.access_token], []⟩

/-- The page-accumulation loop that `list_calendars` and `list_events` both
contain verbatim: each element of `pages` is the decoded outcome of one
`with_token_refresh` round, in call order; the loop extends the accumulator
with the page's items and issues another call exactly while a continuation
token is present.  An exhausted `pages` list models a round with no
response. -/
def paginate_loop {α : Type} :
    List (Except String (PageResponse α)) → List α → Except String (List α)
  | [], _ => .error "API call failed"
  | .error e :: _, _ => .error e
  | .ok response :: rest, acc =>
    let acc2 := acc ++ response.items
    match response.next_page_token with
    | some _ => paginate_loop rest acc2
    | none => .ok acc2

/-- Model of `CalendarClient::list_calendars` (the accumulation loop;
request building is part of the environment). -/
def list_calendars (pages : List (Except String (PageResponse Calendar))) :
    Except String (List Calendar) :=
  paginate_loop pages []

/-- Model of `CalendarClient::list_events` (the accumulation loop; calendar
id and time window only shape the requests). -/
def list_events (pages : List (Except String (PageResponse Event))) :
    Except String (List Event) :=
  paginate_loop pages []

/-! ### Data fetcher: model of `src/tui/fetcher.rs` -/

/-- Model of `fetcher::extract_date_from_event`, parameterised by the two
external string parsers it calls (`DateTime::parse_from_rfc3339` composed
with `date_naive`, and `NaiveDate::parse_from_str` with format `%Y-%m-%d`):
try the precise timestamp first, then the all-day date. -/
def extract_date_from_event (parse_rfc3339 parse_ymd : String → Option NaiveDate)
    (event : Event) : Option NaiveDate :=
  match event.start.date_time with
  | some s =>
    (match parse_rfc3339 s with
     | some dt => some dt
     | none =>
       match event.start.date with
       | some s2 => parse_ymd s2
       | none => none)
  | none =>
    match event.start.date with
    | some s2 => parse_ymd s2
    | none => none

/-- Association-list form of
`all_events_by_date.entry(date).or_default().push(event)`. -/
def insert_event (m : List (NaiveDate × List Event)) (date : NaiveDate) (event : Event) :
    List (NaiveDate × List Event) :=
  if m.any fun kv => decide (kv.1 = date) then
    m.map fun kv => if kv.1 = date then (kv.1, kv.2 ++ [event]) else kv
  else m ++ [(date, [event])]

/-- Group one calendar's events by extracted start date, in order; events
whose start cannot be parsed are dropped. -/
def bucket_events (p1 p2 : String → Option NaiveDate) (events : List Event)
    (m : List (NaiveDate × List Event)) : List (NaiveDate × List Event) :=
  events.foldl (fun acc event =>
    match extract_date_from_event p1 p2 event with
    | some date => insert_event acc date event
    | none => acc) m

/-- Environment of one `fetch_calendar_data` pass: the outcome of
`list_calendars`, and the outcome of the i-th `list_events` call (one per
calendar, in iteration order). -/
structure FetchEnv where
  calendars : Except String (List Calendar)
  events : Nat → Except String (List Event)

/-- The `for calendar in &calendars` loop of `fetch_calendar_data`: a failed
per-calendar fetch is skipped with its error swallowed, a successful one is
bucketed into the index. -/
def fetch_loop (p1 p2 : String → Option NaiveDate) (env : FetchEnv) :
    List Calendar → Nat → List (NaiveDate × List Event) → List (NaiveDate × List Event)
  | [], _, m => m
  | _ :: rest, i, m =>
    match env.events i with
    | .error _ => fetch_loop p1 p2 env rest (i + 1) m
    | .ok events => fetch_loop p1 p2 env rest (i + 1) (bucket_events p1 p2 events m)

/-- Model of `fetcher::fetch_calendar_data`: fetch the calendar list
(failure is fatal), then fetch and bucket each calendar's events, swallowing
per-calendar failures. -/
def fetch_calendar_data (p1 p2 : String → Option NaiveDate) (env : FetchEnv) :
    Except String (List Calendar × List (NaiveDate × List Event)) :=
  match env.calendars with
  | .error e => .error e
  | .ok calendars => .ok (calendars, fetch_loop p1 p2 env calendars 0 [])

/-! ### Concrete sample values used by witnesses and counterexamples -/

/-- A minimal event record, as deserialised from a response carrying only an
id (all optional fields absent). -/
def sampleEvent : Event :=
  ⟨"ev1", none, none, none, ⟨none, none, none⟩, ⟨none, none, none⟩, none, none, none⟩

/-- A minimal calendar record. -/
def sampleCalendar : Calendar := ⟨"cal1", "Calendar 1", false, "UTC", "owner", none, none⟩

/-- A second minimal calendar record. -/
def sampleCalendar2 : Calendar := ⟨"cal2", "Calendar 2", true, "UTC", "reader", none, none⟩

/-- A concrete application state: 2025-06-15 selected, today 2025-06-20,
calendar focus, list mode, no selection, June 2025 pinned. -/
def baseState : AppState :=
  { selected_date := ⟨2025, 6, 15⟩,
    today := ⟨2025, 6, 20⟩,
    calendars := [],
    events := [],
    loading := false,
    error := none,
    view_focus := .Calendar,
    selected_event_index := none,
    events_view_mode := .List,
    current_date_range := ⟨⟨2025, 4, 1⟩, ⟨2025, 8, 31⟩⟩,
    current_month := (2025, 6) }

/-! ### C5 — refresh updates the pair and persists it -/

/-- C5: every successful run of `refresh_access_token` installs the newly
issued access token, replaces the stored refresh token exactly when the
provider's response includes a new one, and persists exactly the updated
`TokenPair` before returning. -/
theorem C5_refresh_updates_and_persists (tokens : Tokens) (env : RefreshEnv)
    (h : (refresh_access_token tokens env).result = .ok ()) :
    ∃ r, env.response = some r ∧
      (refresh_access_token tokens env).tokens.access_token = r.access_token ∧
      (refresh_access_token tokens env).tokens.refresh_token =
        (match r.refresh_token with
         | some t => t
         | none => tokens.refresh_token) ∧
      (refresh_access_token tokens env).saved = [(refresh_access_token tokens env).tokens] := by
  cases henv : env.response with
  | none => simp [refresh_access_token, henv] at h
  | some r =>
    refine ⟨r, rfl, ?_⟩
    by_cases hs : env.saveOk
    · cases hrt : r.refresh_token <;>
        simp [refresh_access_token, henv, hs, hrt]
    · simp [refresh_access_token, henv, hs] at h

/-- Witness for C5 at a concrete environment that issues a new refresh
token. -/
theorem C5_witness :
    (refresh_access_token ⟨"a1", "r1"⟩ ⟨some ⟨"a2", some "r2"⟩, true⟩).result = .ok () ∧
    (∃ r, (⟨some ⟨"a2", some "r2"⟩, true⟩ : RefreshEnv).response = some r ∧
      (refresh_access_token ⟨"a1", "r1"⟩ ⟨some ⟨"a2", some "r2"⟩, true⟩).tokens.access_token =
        r.access_token ∧
      (refresh_access_token ⟨"a1", "r1"⟩ ⟨some ⟨"a2", some "r2"⟩, true⟩).tokens.refresh_token =
        (match r.refresh_token with
         | some t => t
         | none => "r1") ∧
      (refresh_access_token ⟨"a1", "r1"⟩ ⟨some ⟨"a2", some "r2"⟩, true⟩).saved =
        [(refresh_access_token ⟨"a1", "r1"⟩ ⟨some ⟨"a2", some "r2"⟩, true⟩).tokens]) :=
  ⟨rfl, C5_refresh_updates_and_persists ⟨"a1", "r1"⟩ ⟨some ⟨"a2", some "r2"⟩, true⟩ rfl⟩

/-! ### C2 — the refresh-and-retry-once protocol -/

/-- C2: for a call through `with_token_refresh` whose first response exists:
a 401 triggers exactly one refresh; when the refresh succeeds the request is
retried exactly once, with the new access token; a second 401 fails the call
after that single refresh and retry; a failed refresh fails the call with no
retry; a non-401 error status fails immediately with no refresh and no
retry; a successful first response is decoded, a decode failure failing the
call without refresh or retry. -/
theorem C2_refresh_retry_protocol (α : Type) (tokens : Tokens) (env : CallEnv α)
    (response : HttpResponse α) (h1 : env.first = some response) :
    (response.status = unauthorized → (with_token_refresh tokens env).refreshes = 1) ∧
    (response.status = unauthorized →
      (refresh_access_token tokens env.refresh).result = .ok () →
      (with_token_refresh tokens env).apiCalls = 2 ∧
      (with_token_refresh tokens env).tokensUsed =
        [tokens.access_token, (refresh_access_token tokens env.refresh).tokens.access_token]) ∧
    (response.status = unauthorized →
      isOk (refresh_access_token tokens env.refresh).result = false →
      isOk (with_token_refresh tokens env).result = false ∧
      (with_token_refresh tokens env).apiCalls = 1) ∧
    (response.status = unauthorized →
      (refresh_access_token tokens env.refresh).result = .ok () →
      ∀ retry_response, env.retry = some retry_response →
        retry_response.status = unauthorized →
        isOk (with_token_refresh tokens env).result = false ∧
        (with_token_refresh tokens env).refreshes = 1 ∧
        (with_token_refresh tokens env).apiCalls = 2) ∧
    (response.status = unauthorized →
      (refresh_access_token tokens env.refresh).result = .ok () →
      ∀ retry_response, env.retry = some retry_response →
        retry_response.status ≠ unauthorized → isErrorStatus retry_response.status = false →
        ∀ v, retry_response.decoded = some v →
          (with_token_refresh tokens env).result = .ok v) ∧
    (response.status ≠ unauthorized → isErrorStatus response.status = true →
      isOk (with_token_refresh tokens env).result = false ∧
      (with_token_refresh tokens env).refreshes = 0 ∧
      (with_token_refresh tokens env).apiCalls = 1) ∧
    (response.status ≠ unauthorized → isErrorStatus response.status = false →
      (∀ v, response.decoded = some v → (with_token_refresh tokens env).result = .ok v) ∧
      (response.decoded = none →
        isOk (with_token_refresh tokens env).result = false ∧
        (with_token_refresh tokens env).refreshes = 0 ∧
        (with_token_refresh tokens env).apiCalls = 1)) := by
  refine ⟨?_, ?_, ?_, ?_, ?_, ?_, ?_⟩
  · intro h401
    simp only [with_token_refresh, h1, h401, if_pos rfl]
    cases (refresh_access_token tokens env.refresh).result with
    | error e => rfl
    | ok u =>
      cases env.retry with
      | none => rfl
      | some retry_response =>
        by_cases hru : retry_response.status = unauthorized <;>
          by_cases hre : isErrorStatus retry_response.status <;>
            rcases hd : retry_response.decoded with _ | v <;> simp [hru, hre, hd]
  · intro h401 hok
    simp only [with_token_refresh, h1, h401, if_pos rfl, hok]
    cases env.retry with
    | none => exact ⟨rfl, rfl⟩
    | some retry_response =>
      by_cases hru : retry_response.status = unauthorized <;>
        by_cases hre : isErrorStatus retry_response.status <;>
          rcases hd : retry_response.decoded with _ | v <;> simp [hru, hre, hd]
  · intro h401 hbad
    simp only [with_token_refresh, h1, h401, if_pos rfl]
    cases hres : (refresh_access_token tokens env.refresh).result with
    | error e => simp [isOk]
    | ok u => rw [hres] at hbad; simp [isOk] at hbad
  · intro h401 hok retry_response hretry hru
    simp only [with_token_refresh, h1, h401, if_pos rfl, hok, hretry, hru, if_pos rfl]
    simp [isOk]
  · intro h401 hok retry_response hretry hru hre v hv
    simp only [with_token_refresh, h1, h401, if_pos rfl, hok, hretry]
    simp [hru, hre, hv]
  · intro hn401 herr
    simp only [with_token_refresh, h1]
    rw [if_neg hn401, if_pos herr]
    simp [isOk]
  · intro hn401 herr
    constructor
    · intro v hv
      simp only [with_token_refresh, h1]
      rw [if_neg hn401, if_neg (by simp [herr])]
      simp [hv]
    · intro hv
      simp only [with_token_refresh, h1]
      rw [if_neg hn401, if_neg (by simp [herr])]
      simp [hv, isOk]

/-- A concrete call environment: first response 401, refresh succeeds with a
new access token and no new refresh token, retry answers 200 with body 5. -/
def c2Env : CallEnv Nat := ⟨some ⟨401, none⟩, ⟨some ⟨"a2", none⟩, true⟩, some ⟨200, some 5⟩⟩

/-- A concrete token pair. -/
def c2Tokens : Tokens := ⟨"a1", "r1"⟩

/-- Witness for C2: a 401 first response, a successful refresh, and a
successful retry, at concrete values. -/
theorem C2_witness :
    c2Env.first = some ⟨401, none⟩ ∧
    (with_token_refresh c2Tokens c2Env).refreshes = 1 ∧
    (with_token_refresh c2Tokens c2Env).apiCalls = 2 ∧
    (with_token_refresh c2Tokens c2Env).tokensUsed = ["a1", "a2"] ∧
    (with_token_refresh c2Tokens c2Env).result = .ok 5 := by
  refine ⟨rfl, ?_, ?_, ?_, ?_⟩
  · exact (C2_refresh_retry_protocol Nat c2Tokens c2Env ⟨401, none⟩ rfl).1 rfl
  · exact ((C2_refresh_retry_protocol Nat c2Tokens c2Env ⟨401, none⟩ rfl).2.1 rfl rfl).1
  · exact (((C2_refresh_retry_protocol Nat c2Tokens c2Env ⟨401, none⟩ rfl).2.1 rfl rfl).2).trans
      (by decide)
  · exact (C2_refresh_retry_protocol Nat c2Tokens c2Env ⟨401, none⟩ rfl).2.2.2.2.1 rfl rfl
      ⟨200, some 5⟩ rfl (by decide) (by decide) 5 rfl

/-! ### C4 — pagination accumulates all pages in order -/

/-- The accumulation loop, run on pages `front ++ [lastp]` where every page
in `front` carries a continuation token and `lastp` does not, consumes
exactly those pages — any further responses `extra` are never requested —
and returns the accumulator extended with all items in page order. -/
theorem paginate_loop_spec {α : Type} (front : List (PageResponse α)) (lastp : PageResponse α)
    (extra : List (Except String (PageResponse α))) (acc : List α)
    (hmid : ∀ p ∈ front, p.next_page_token.isSome = true)
    (hlast : lastp.next_page_token = none) :
    paginate_loop ((front ++ [lastp]).map Except.ok ++ extra) acc =
      .ok (acc ++ ((front ++ [lastp]).map PageResponse.items).flatten) := by
  induction front generalizing acc with
  | nil => simp [paginate_loop, hlast]
  | cons p rest ih =>
    have hp : p.next_page_token.isSome = true := hmid p (List.mem_cons_self p rest)
    rcases ht : p.next_page_token with _ | t
    · rw [ht] at hp; simp at hp
    · have hrec := ih (acc ++ p.items) (fun q hq => hmid q (List.mem_cons_of_mem p hq))
      simp only [List.cons_append, List.map_cons, paginate_loop, ht, List.append_eq] at hrec ⊢
      rw [hrec]
      simp

/-- C4: both paginated listings — `list_calendars` and `list_events` — given
a response sequence of `N = front.length + 1` pages where every page but the
last carries a continuation token, return the concatenation of all pages'
items in page order, and stop exactly at the token-less page (responses
beyond it are never consumed). -/
theorem C4_pagination :
    (∀ (front : List (PageResponse Calendar)) (lastp : PageResponse Calendar)
       (extra : List (Except String (PageResponse Calendar))),
      (∀ p ∈ front, p.next_page_token.isSome = true) → lastp.next_page_token = none →
      list_calendars ((front ++ [lastp]).map Except.ok ++ extra) =
        .ok ((front ++ [lastp]).map PageResponse.items).flatten) ∧
    (∀ (front : List (PageResponse Event)) (lastp : PageResponse Event)
       (extra : List (Except String (PageResponse Event))),
      (∀ p ∈ front, p.next_page_token.isSome = true) → lastp.next_page_token = none →
      list_events ((front ++ [lastp]).map Except.ok ++ extra) =
        .ok ((front ++ [lastp]).map PageResponse.items).flatten) := by
  constructor
  · intro front lastp extra hmid hlast
    unfold list_calendars
    rw [paginate_loop_spec front lastp extra [] hmid hlast]
    simp
  · intro front lastp extra hmid hlast
    unfold list_events
    rw [paginate_loop_spec front lastp extra [] hmid hlast]
    simp

/-- Witness for C4: two calendar pages (the first with a token) followed by
an extra response that must not be consumed, and a single token-less event
page. -/
theorem C4_witness :
    (∀ p ∈ [(⟨[sampleCalendar], some "tok"⟩ : PageResponse Calendar)],
      p.next_page_token.isSome = true) ∧
    (⟨[sampleCalendar2], none⟩ : PageResponse Calendar).next_page_token = none ∧
    list_calendars (([⟨[sampleCalendar], some "tok"⟩, ⟨[sampleCalendar2], none⟩] :
        List (PageResponse Calendar)).map Except.ok ++ [.error "never requested"]) =
      .ok [sampleCalendar, sampleCalendar2] ∧
    list_events (([⟨[sampleEvent], none⟩] : List (PageResponse Event)).map Except.ok) =
      .ok [sampleEvent] := by
  refine ⟨by decide, rfl, ?_, ?_⟩
  · exact (C4_pagination.1 [⟨[sampleCalendar], some "tok"⟩] ⟨[sampleCalendar2], none⟩
      [.error "never requested"] (by decide) rfl).trans (by rfl)
  · exact (C4_pagination.2 [] ⟨[sampleEvent], none⟩ [] (by decide) rfl).trans (by rfl)

/-! ### C6 — per-calendar fetch failures are swallowed -/

/-- When every per-calendar fetch the loop will consult fails, the loop
leaves the index untouched. -/
theorem fetch_loop_all_failed (p1 p2 : String → Option NaiveDate) (env : FetchEnv)
    (cals : List Calendar) (i : Nat) (m : List (NaiveDate × List Event))
    (hfail : ∀ j, j < cals.length → isOk (env.events (i + j)) = false) :
    fetch_loop p1 p2 env cals i m = m := by
  induction cals generalizing i with
  | nil => rfl
  | cons c rest ih =>
    have h0 : isOk (env.events i) = false := by simpa using hfail 0 (by simp)
    rcases he : env.events i with e | evs
    · simp only [fetch_loop, he]
      exact ih (i + 1) fun j hj => by
        have := hfail (j + 1) (by simpa using Nat.succ_lt_succ hj)
        simpa [Nat.add_assoc, Nat.add_comm 1 j] using this
    · rw [he] at h0; simp [isOk] at h0

/-- C6: when the calendar listing succeeds, `fetch_calendar_data` returns
success carrying exactly those calendars, regardless of per-calendar event
fetch failures; in particular when every calendar's fetch fails the caller
observes success with an empty event index. -/
theorem C6_partial_failures_swallowed (p1 p2 : String → Option NaiveDate) (env : FetchEnv)
    (cals : List Calendar) (hc : env.calendars = .ok cals) :
    (∃ index, fetch_calendar_data p1 p2 env = .ok (cals, index)) ∧
    ((∀ j, j < cals.length → isOk (env.events j) = false) →
      fetch_calendar_data p1 p2 env = .ok (cals, [])) := by
  constructor
  · exact ⟨fetch_loop p1 p2 env cals 0 [], by simp [fetch_calendar_data, hc]⟩
  · intro hfail
    simp only [fetch_calendar_data, hc]
    rw [fetch_loop_all_failed p1 p2 env cals 0 [] (fun j hj => by simpa using hfail j hj)]

/-- A fetch environment whose calendar listing succeeds with two calendars
while every per-calendar event fetch fails. -/
def c6Env : FetchEnv :=
  ⟨.ok [sampleCalendar, sampleCalendar2], fun _ => .error "network unreachable"⟩

/-- Witness for C6: with both calendars' event fetches failing, the fetch
still succeeds and the index is empty. -/
theorem C6_witness :
    c6Env.calendars = .ok [sampleCalendar, sampleCalendar2] ∧
    (∀ j, j < [sampleCalendar, sampleCalendar2].length → isOk (c6Env.events j) = false) ∧
    fetch_calendar_data (fun _ => none) (fun _ => none) c6Env =
      .ok ([sampleCalendar, sampleCalendar2], []) :=
  ⟨rfl, fun _ _ => rfl,
   (C6_partial_failures_swallowed (fun _ => none) (fun _ => none) c6Env
     [sampleCalendar, sampleCalendar2] rfl).2 (fun _ _ => rfl)⟩

/-! ### C7 — the overloaded meaning of Esc -/

/-- C7: Esc quits from Calendar focus and from Events focus in List mode,
but in Events focus in Details mode it only returns to List mode with a
non-Quit action; the four global keys short-circuit before this dispatch,
behaving identically in every focus and view mode. -/
theorem C7_esc_dispatch (st : AppState) :
    (st.view_focus = .Calendar → handle_key_event .Esc st = some (.Quit, st)) ∧
    (st.view_focus = .Events → st.events_view_mode = .List →
      handle_key_event .Esc st = some (.Quit, st)) ∧
    (∀ i, st.view_focus = .Events → st.events_view_mode = .Details i →
      handle_key_event .Esc st = some (.None, exit_event_details st) ∧
      (exit_event_details st).events_view_mode = .List ∧
      InputAction.None ≠ InputAction.Quit) ∧
    handle_key_event (.Char 'q') st = some (.Quit, st) ∧
    handle_key_event (.Char 'r') st = some (.Refresh, st) ∧
    handle_key_event (.Char 't') st = some (.None, jump_to_today st) ∧
    handle_key_event .Tab st = some (.None, toggle_focus st) := by
  refine ⟨?_, ?_, ?_, rfl, rfl, rfl, rfl⟩
  · intro hf
    simp [handle_key_event, hf, handle_calendar_input]
  · intro hf hm
    simp [handle_key_event, hf, handle_events_input, hm, handle_events_list_input]
  · intro i hf hm
    refine ⟨?_, rfl, by decide⟩
    simp [handle_key_event, hf, handle_events_input, hm, handle_events_details_input]

/-- A state in Events focus showing event details. -/
def c7DetailsState : AppState :=
  { baseState with view_focus := .Events, events_view_mode := .Details 0 }

/-- Witness for C7: Esc quits from Calendar focus but only leaves Details
mode in Events focus. -/
theorem C7_witness :
    baseState.view_focus = .Calendar ∧
    handle_key_event .Esc baseState = some (.Quit, baseState) ∧
    (c7DetailsState.view_focus = .Events ∧ c7DetailsState.events_view_mode = .Details 0) ∧
    handle_key_event .Esc c7DetailsState = some (.None, exit_event_details c7DetailsState) :=
  ⟨rfl, (C7_esc_dispatch baseState).1 rfl, ⟨rfl, rfl⟩,
   ((C7_esc_dispatch c7DetailsState).2.2.1 0 rfl rfl).1⟩

/-! ### C8 — event-selection cycling (corrected)

The original claim fails: with a stale selection index at or beyond the
event count, the up key subtracts one without wrapping, which can leave an
out-of-range index that is not `(i - 1) mod n`. -/

/-- A state whose selected date has one event but whose selection index is a
stale `some 2`. -/
def c8State : AppState :=
  { baseState with events := [(⟨2025, 6, 15⟩, [sampleEvent])], selected_event_index := some 2 }

/-- Counterexample to C8 as stated: with one event and stale index 2, the up
key produces index 1, which is not a valid index (`1 < 1` fails) and is not
`(2 - 1) mod 1 = 0`. -/
theorem C8_counterexample :
    (get_events_for_date c8State c8State.selected_date).length = 1 ∧
    (move_event_selection_up c8State).selected_event_index = some 1 ∧
    ¬ 1 < (get_events_for_date c8State c8State.selected_date).length := by
  refine ⟨by decide, by decide, by decide⟩

/-- C8 (amended): with no events for the selected date, up and down leave
the whole state unchanged; with `n > 0` events, down always moves to
`(i + 1) mod n` (0 from no selection), a valid index, and up moves to
`n - 1` from no selection and, from a selection `i < n`, to
`(i + n - 1) mod n` — that is, `(i - 1) mod n` with wrap-around — a valid
index.  (From a stale selection `i ≥ n` the up key is not modular.) -/
theorem C8_event_cycling (st : AppState) :
    ((get_events_for_date st st.selected_date).length = 0 →
      move_event_selection_down st = st ∧ move_event_selection_up st = st) ∧
    (0 < (get_events_for_date st st.selected_date).length →
      (move_event_selection_down st).selected_event_index =
        some (match st.selected_event_index with
              | none => 0
              | some i => (i + 1) % (get_events_for_date st st.selected_date).length) ∧
      (∀ j, (move_event_selection_down st).selected_event_index = some j →
        j < (get_events_for_date st st.selected_date).length)) ∧
    (0 < (get_events_for_date st st.selected_date).length →
      st.selected_event_index = none →
      (move_event_selection_up st).selected_event_index =
        some ((get_events_for_date st st.selected_date).length - 1) ∧
      (get_events_for_date st st.selected_date).length - 1 <
        (get_events_for_date st st.selected_date).length) ∧
    (0 < (get_events_for_date st st.selected_date).length →
      ∀ i, st.selected_event_index = some i →
        i < (get_events_for_date st st.selected_date).length →
        (move_event_selection_up st).selected_event_index =
          some ((i + (get_events_for_date st st.selected_date).length - 1) %
            (get_events_for_date st st.selected_date).length) ∧
        (i + (get_events_for_date st st.selected_date).length - 1) %
            (get_events_for_date st st.selected_date).length <
          (get_events_for_date st st.selected_date).length) := by
  refine ⟨?_, ?_, ?_, ?_⟩
  · intro h0
    constructor
    · unfold move_event_selection_down
      simp [h0]
    · unfold move_event_selection_up
      simp [h0]
  · intro hpos
    have hne : ¬ (get_events_for_date st st.selected_date).length = 0 := by omega
    constructor
    · unfold move_event_selection_down
      simp only [hne, if_false]
    · intro j hj
      unfold move_event_selection_down at hj
      simp only [hne, if_false] at hj
      cases hsel : st.selected_event_index with
      | none => rw [hsel] at hj; simp at hj; omega
      | some i =>
        rw [hsel] at hj
        simp at hj
        subst hj
        exact Nat.mod_lt _ hpos
  · intro hpos hnone
    have hne : ¬ (get_events_for_date st st.selected_date).length = 0 := by omega
    constructor
    · unfold move_event_selection_up
      rw [hnone]
      simp only [hne, if_false]
    · omega
  · intro hpos i hsel hlt
    have hne : ¬ (get_events_for_date st st.selected_date).length = 0 := by omega
    constructor
    · unfold move_event_selection_up
      rw [hsel]
      simp only [hne, if_false]
      cases i with
      | zero =>
        show some ((get_events_for_date st st.selected_date).length - 1) =
          some ((0 + (get_events_for_date st st.selected_date).length - 1) %
            (get_events_for_date st st.selected_date).length)
        rw [Nat.zero_add, Nat.mod_eq_of_lt (by omega)]
      | succ k =>
        show some k =
          some ((k + 1 + (get_events_for_date st st.selected_date).length - 1) %
            (get_events_for_date st st.selected_date).length)
        have harith : k + 1 + (get_events_for_date st st.selected_date).length - 1 =
            k + (get_events_for_date st st.selected_date).length := by omega
        rw [harith, Nat.add_mod_right, Nat.mod_eq_of_lt (by omega)]
    · exact Nat.mod_lt _ hpos

/-- A state with two events for the selected date and index 0 selected. -/
def c8WitnessState : AppState :=
  { baseState with
    events := [(⟨2025, 6, 15⟩, [sampleEvent, sampleEvent])],
    selected_event_index := some 0 }

/-- Witness for the amended C8: with two events, the up key wraps the
selection from index 0 to index 1. -/
theorem C8_witness :
    0 < (get_events_for_date c8WitnessState c8WitnessState.selected_date).length ∧
    c8WitnessState.selected_event_index = some 0 ∧
    (move_event_selection_up c8WitnessState).selected_event_index = some 1 :=
  ⟨by decide, rfl,
   (((C8_event_cycling c8WitnessState).2.2.2 (by decide) 0 rfl (by decide)).1).trans (by decide)⟩

/-! ### C1 — date changes reset the event selection (corrected)

The original claim fails: the jump-to-today key changes `selected_date` but
does not reset `selected_event_index` or the view mode. -/

/-- A state with an event selected (index 0) and today different from the
selected date. -/
def c1State : AppState := { baseState with selected_event_index := some 0 }

/-- Counterexample to C1 as stated: pressing the jump-to-today key changes
the selected date, yet `selected_event_index` remains `some 0`. -/
theorem C1_counterexample :
    handle_key_event (.Char 't') c1State =
      some (.None, { c1State with selected_date := c1State.today }) ∧
    c1State.today ≠ c1State.selected_date ∧
    ({ c1State with selected_date := c1State.today } : AppState).selected_event_index =
      some 0 :=
  ⟨rfl, by decide, rfl⟩

/-- After mapping the reset over a date move, the resulting state always has
a cleared selection and List mode. -/
theorem reset_after_move (o : Option AppState) (a : InputAction) (st1 : AppState)
    (h : o.map (fun s => (InputAction.None, reset_event_selection s)) = some (a, st1)) :
    st1.selected_event_index = none ∧ st1.events_view_mode = .List := by
  cases o with
  | none => simp at h
  | some s =>
    simp at h
    rw [← h.2]
    exact ⟨rfl, rfl⟩

/-- Event-selection moves never change the selected date. -/
theorem selected_date_move_up (st : AppState) :
    (move_event_selection_up st).selected_date = st.selected_date := by
  unfold move_event_selection_up
  by_cases h : (get_events_for_date st st.selected_date).length = 0 <;> simp [h]

/-- Event-selection moves never change the selected date. -/
theorem selected_date_move_down (st : AppState) :
    (move_event_selection_down st).selected_date = st.selected_date := by
  unfold move_event_selection_down
  by_cases h : (get_events_for_date st st.selected_date).length = 0 <;> simp [h]

/-- Opening the details view never changes the selected date. -/
theorem selected_date_select_event (st : AppState) :
    (select_event st).selected_date = st.selected_date := by
  unfold select_event
  cases st.selected_event_index <;> rfl

/-- C1 (amended): after any key other than jump-to-today whose handling
changed `selected_date`, the selection is reset — `selected_event_index` is
`none` and the view mode is List.  (Jump-to-today changes the date without
resetting the selection, as `C1_counterexample` shows.) -/
theorem C1_date_change_resets_selection (key : KeyCode) (st : AppState)
    (a : InputAction) (st1 : AppState)
    (h : handle_key_event key st = some (a, st1))
    (ht : key ≠ .Char 't')
    (hd : st1.selected_date ≠ st.selected_date) :
    st1.selected_event_index = none ∧ st1.events_view_mode = .List := by
  by_cases hq : key = .Char 'q'
  · subst hq
    simp [handle_key_event] at h
    exact absurd (by rw [← h.2]) hd
  by_cases hr : key = .Char 'r'
  · subst hr
    simp [handle_key_event] at h
    exact absurd (by rw [← h.2]) hd
  by_cases htab : key = .Tab
  · subst htab
    simp [handle_key_event, toggle_focus] at h
    exact absurd (by rw [← h.2]) hd
  simp only [handle_key_event, hq, hr, ht, htab, if_false] at h
  cases hv : st.view_focus with
  | Calendar =>
    rw [hv] at h
    unfold handle_calendar_input at h
    by_cases he : key = .Esc
    · simp [he] at h
      exact absurd (by rw [← h.2]) hd
    rw [if_neg he] at h
    by_cases h1 : key = .Left ∨ key = .Char 'h'
    · rw [if_pos h1] at h
      exact reset_after_move _ _ _ h
    rw [if_neg h1] at h
    by_cases h2 : key = .Right ∨ key = .Char 'l'
    · rw [if_pos h2] at h
      exact reset_after_move _ _ _ h
    rw [if_neg h2] at h
    by_cases h3 : key = .Up ∨ key = .Char 'k'
    · rw [if_pos h3] at h
      exact reset_after_move _ _ _ h
    rw [if_neg h3] at h
    by_cases h4 : key = .Down ∨ key = .Char 'j'
    · rw [if_pos h4] at h
      exact reset_after_move _ _ _ h
    rw [if_neg h4] at h
    simp at h
    exact absurd (by rw [← h.2]) hd
  | Events =>
    rw [hv] at h
    unfold handle_events_input at h
    cases hm : st.events_view_mode with
    | List =>
      rw [hm] at h
      unfold handle_events_list_input at h
      by_cases he : key = .Esc
      · simp [he] at h
        exact absurd (by rw [← h.2]) hd
      rw [if_neg he] at h
      by_cases h1 : key = .Up ∨ key = .Char 'k'
      · rw [if_pos h1] at h
        simp at h
        exact absurd (by rw [← h.2, selected_date_move_up]) hd
      rw [if_neg h1] at h
      by_cases h2 : key = .Down ∨ key = .Char 'j'
      · rw [if_pos h2] at h
        simp at h
        exact absurd (by rw [← h.2, selected_date_move_down]) hd
      rw [if_neg h2] at h
      by_cases h3 : key = .Enter
      · rw [if_pos h3] at h
        simp at h
        exact absurd (by rw [← h.2, selected_date_select_event]) hd
      rw [if_neg h3] at h
      simp at h
      exact absurd (by rw [← h.2]) hd
    | Details i =>
      rw [hm] at h
      unfold handle_events_details_input at h
      by_cases he : key = .Esc
      · rw [if_pos he] at h
        simp at h
        exact absurd (by rw [← h.2]; rfl) hd
      rw [if_neg he] at h
      simp at h
      exact absurd (by rw [← h.2]) hd

/-- The state reached from `c1State` by one Left key press: the date moved
back one day and the selection was reset. -/
def c1AfterLeft : AppState :=
  { c1State with
    selected_date := ⟨2025, 6, 14⟩,
    selected_event_index := none,
    events_view_mode := .List }

/-- Witness for the amended C1 at the Left key: the date changed and the
selection was reset. -/
theorem C1_witness :
    handle_key_event .Left c1State = some (.None, c1AfterLeft) ∧
    KeyCode.Left ≠ KeyCode.Char 't' ∧
    c1AfterLeft.selected_date ≠ c1State.selected_date ∧
    (c1AfterLeft.selected_event_index = none ∧ c1AfterLeft.events_view_mode = .List) :=
  ⟨by decide, by decide, by decide,
   C1_date_change_resets_selection .Left c1State .None c1AfterLeft (by decide) (by decide)
     (by decide)⟩

/-! ### C3 — cache eviction keeps the window and the pinned month -/

/-- Membership after removing, one by one, every key in `ds` from an
association list: exactly the original entries whose key is not in `ds`. -/
theorem mem_foldl_filter (ds : List NaiveDate) (m : List (NaiveDate × List Event))
    (kv : NaiveDate × List Event) :
    kv ∈ ds.foldl (fun acc date => acc.filter fun e => decide (e.1 ≠ date)) m ↔
      kv ∈ m ∧ kv.1 ∉ ds := by
  induction ds generalizing m with
  | nil => simp
  | cons d ds ih =>
    simp only [List.foldl_cons, ih, List.mem_filter, decide_eq_true_eq, List.mem_cons, not_or]
    tauto

/-- C3: after `trim_events_to_25_month_span`, every remaining event-index
key lies inside the 25-month cache range or belongs to the pinned
`current_month`, and every original entry whose month is the pinned month
survives. -/
theorem C3_trim_retention (st : AppState) (cache_range : DateRange) (st1 : AppState)
    (hr : DateRange.twenty_five_month_span st.selected_date = some cache_range)
    (ht : trim_events_to_25_month_span st = some st1) :
    (∀ kv ∈ st1.events,
      (kv.1.ltb cache_range.start = false ∧ cache_range.end_.ltb kv.1 = false) ∨
      (kv.1.year, kv.1.month) = st.current_month) ∧
    (∀ kv ∈ st.events, (kv.1.year, kv.1.month) = st.current_month → kv ∈ st1.events) := by
  unfold trim_events_to_25_month_span at ht
  rw [hr] at ht
  simp only [Option.some.injEq] at ht
  subst ht
  constructor
  · intro kv hkv
    dsimp only at hkv
    rw [mem_foldl_filter] at hkv
    rcases hkv with ⟨hmem, hnot⟩
    by_cases hcur : (kv.1.year, kv.1.month) = st.current_month
    · exact Or.inr hcur
    have hinmap : kv.1 ∈ st.events.map Prod.fst := List.mem_map_of_mem Prod.fst hmem
    cases h1 : kv.1.ltb cache_range.start with
    | false =>
      cases h2 : cache_range.end_.ltb kv.1 with
      | false => exact Or.inl ⟨rfl, rfl⟩
      | true =>
        exact absurd (List.mem_filter.mpr ⟨hinmap, by simp [hcur, h1, h2]⟩) hnot
    | true =>
      exact absurd (List.mem_filter.mpr ⟨hinmap, by simp [hcur, h1]⟩) hnot
  · intro kv hmem hcur
    dsimp only
    rw [mem_foldl_filter]
    refine ⟨hmem, fun hin => ?_⟩
    rcases List.mem_filter.mp hin with ⟨_, hp⟩
    rw [if_pos hcur] at hp
    exact absurd hp (by simp)

/-- A state whose cache holds a key far outside the retention window, a key
inside it, and a distant key in the pinned month (January 2023). -/
def c3State : AppState :=
  { baseState with
    events := [(⟨2020, 1, 1⟩, []), (⟨2025, 6, 20⟩, [sampleEvent]), (⟨2023, 1, 5⟩, [])],
    current_month := (2023, 1) }

/-- The retention range centred on 2025-06-15. -/
def c3Range : DateRange := ⟨⟨2024, 6, 1⟩, ⟨2026, 6, 30⟩⟩

/-- The state `c3State` after trimming: the 2020 key is evicted, the in-window key and
the pinned-month key survive. -/
def c3After : AppState :=
  { c3State with events := [(⟨2025, 6, 20⟩, [sampleEvent]), (⟨2023, 1, 5⟩, [])] }

/-- Witness for C3 at a concrete cache. -/
theorem C3_witness :
    DateRange.twenty_five_month_span c3State.selected_date = some c3Range ∧
    trim_events_to_25_month_span c3State = some c3After ∧
    ((∀ kv ∈ c3After.events,
        (kv.1.ltb c3Range.start = false ∧ c3Range.end_.ltb kv.1 = false) ∨
        (kv.1.year, kv.1.month) = c3State.current_month) ∧
      (∀ kv ∈ c3State.events,
        (kv.1.year, kv.1.month) = c3State.current_month → kv ∈ c3After.events)) :=
  ⟨by decide, by decide, C3_trim_retention c3State c3Range c3After (by decide) (by decide)⟩

/-! ### C10 — `move_selected_date` (corrected)

The original claim fails: `move_selected_date` is not total over every
signed 64-bit day offset, because `chrono::Duration::days` panics for
offsets beyond `timeDeltaDaysMax`; inside that bound the claimed behaviour
holds. -/

/-- Counterexample to C10 as stated: at offset `i64::MAX` the call panics
(modelled as `none`) instead of either advancing the date or leaving it
unchanged. -/
theorem C10_counterexample : move_selected_date baseState 9223372036854775807 = none := by
  decide

/-- C10 (amended): for day offsets that `chrono::Duration::days` accepts,
`move_selected_date` always returns a state in which every field other than
`selected_date` is unchanged, and `selected_date` has advanced by exactly
the requested number of days when the shifted day number is representable
and is completely unchanged otherwise; offsets beyond the `Duration::days`
bound panic. -/
theorem C10_move_selected_date (st : AppState) (days : Int) :
    (-timeDeltaDaysMax ≤ days ∧ days ≤ timeDeltaDaysMax →
      ∃ st1, move_selected_date st days = some st1 ∧
        st1.today = st.today ∧ st1.calendars = st.calendars ∧ st1.events = st.events ∧
        st1.loading = st.loading ∧ st1.error = st.error ∧ st1.view_focus = st.view_focus ∧
        st1.selected_event_index = st.selected_event_index ∧
        st1.events_view_mode = st.events_view_mode ∧
        st1.current_date_range = st.current_date_range ∧
        st1.current_month = st.current_month ∧
        ((minDays ≤ st.selected_date.toDays + days ∧
            st.selected_date.toDays + days ≤ maxDays) →
          st1.selected_date.toDays = st.selected_date.toDays + days) ∧
        (¬ (minDays ≤ st.selected_date.toDays + days ∧
            st.selected_date.toDays + days ≤ maxDays) →
          st1.selected_date = st.selected_date)) ∧
    ((days < -timeDeltaDaysMax ∨ timeDeltaDaysMax < days) →
      move_selected_date st days = none) := by
  constructor
  · intro hin
    unfold move_selected_date
    rw [if_neg (by simp only [not_or, not_lt]; exact hin)]
    unfold NaiveDate.checked_add_signed
    by_cases hk : minDays ≤ st.selected_date.toDays + days ∧
        st.selected_date.toDays + days ≤ maxDays
    · rw [if_pos hk]
      exact ⟨_, rfl, rfl, rfl, rfl, rfl, rfl, rfl, rfl, rfl, rfl, rfl,
        fun _ => toDays_ofDays _, fun hc => absurd hk hc⟩
    · rw [if_neg hk]
      exact ⟨st, rfl, rfl, rfl, rfl, rfl, rfl, rfl, rfl, rfl, rfl, rfl,
        fun hc => absurd hc hk, fun _ => rfl⟩
  · intro hout
    unfold move_selected_date
    rw [if_pos hout]

/-- Witness for the amended C10: a one-day move from `baseState` advances
the day number by one with all other fields untouched. -/
theorem C10_witness :
    (-timeDeltaDaysMax ≤ (1 : Int) ∧ (1 : Int) ≤ timeDeltaDaysMax) ∧
    (∃ st1, move_selected_date baseState 1 = some st1 ∧
      st1.today = baseState.today ∧ st1.calendars = baseState.calendars ∧
      st1.events = baseState.events ∧
      st1.loading = baseState.loading ∧ st1.error = baseState.error ∧
      st1.view_focus = baseState.view_focus ∧
      st1.selected_event_index = baseState.selected_event_index ∧
      st1.events_view_mode = baseState.events_view_mode ∧
      st1.current_date_range = baseState.current_date_range ∧
      st1.current_month = baseState.current_month ∧
      ((minDays ≤ baseState.selected_date.toDays + 1 ∧
          baseState.selected_date.toDays + 1 ≤ maxDays) →
        st1.selected_date.toDays = baseState.selected_date.toDays + 1) ∧
      (¬ (minDays ≤ baseState.selected_date.toDays + 1 ∧
          baseState.selected_date.toDays + 1 ≤ maxDays) →
        st1.selected_date = baseState.selected_date)) :=
  ⟨by decide, (C10_move_selected_date baseState 1).1 (by decide)⟩

/-! ### C9 — the five-month fetch window -/

/-- Every month has at least one day. -/
theorem daysInMonth_pos (y m : Int) : 1 ≤ daysInMonth y m := by
  unfold daysInMonth
  split_ifs <;> norm_num

/-- On in-range inputs, `DateRange.last_day_of_month` is the last day of
that month: day `daysInMonth y m` of month `m` of year `y`. -/
theorem last_day_of_month_eq (y m : Int) (h1 : 1 ≤ m) (h2 : m ≤ 12)
    (h3 : minYear ≤ y) (h4 : y ≤ maxYear) (h5 : m = 12 → y < maxYear) :
    DateRange.last_day_of_month y m = some ⟨y, m, daysInMonth y m⟩ := by
  unfold DateRange.last_day_of_month
  by_cases hm : m = 12
  · subst hm
    have hy1 : y < maxYear := h5 rfl
    have hval : (NaiveDate.mk (y + 1) 1 1).isValid = true := by
      simp only [NaiveDate.isValid, daysInMonth, minYear, maxYear, Bool.and_eq_true,
        decide_eq_true_eq]
      norm_num
      simp only [minYear, maxYear] at h3 hy1
      omega
    rw [if_pos rfl]
    simp only [from_ymd_opt, hval, if_true]
    unfold NaiveDate.pred_opt
    norm_num
    constructor
    · simp only [minYear] at h3 ⊢
      omega
    · norm_num [daysInMonth]
  · have hval : (NaiveDate.mk y (m + 1) 1).isValid = true := by
      simp only [NaiveDate.isValid, Bool.and_eq_true, decide_eq_true_eq]
      refine ⟨⟨⟨⟨⟨h3, h4⟩, by omega⟩, by omega⟩, by norm_num⟩, daysInMonth_pos y (m + 1)⟩
    rw [if_neg hm]
    simp only [from_ymd_opt, hval, if_true]
    unfold NaiveDate.pred_opt
    norm_num
    omega

/-- Linear month index: months elapsed since January of year 0. -/
def monthIndex (y m : Int) : Int := 12 * y + (m - 1)

/-- Year containing linear month index `i`. -/
def yearOfIndex (i : Int) : Int := i / 12

/-- Month (1–12) of linear month index `i`. -/
def monthOfIndex (i : Int) : Int := i % 12 + 1

/-- C9: for every valid centre date (with a year away from the extreme
boundary years), the five-month span starts on the first day of the month
two months before the centre's month and ends on the last day of the month
two months after it, across year boundaries — months measured on the linear
month scale. -/
theorem C9_five_month_span (c : NaiveDate) (hv : c.isValid = true)
    (hy1 : minYear < c.year) (hy2 : c.year < maxYear) :
    DateRange.five_month_span c = some
      ⟨⟨yearOfIndex (monthIndex c.year c.month - 2),
        monthOfIndex (monthIndex c.year c.month - 2), 1⟩,
       ⟨yearOfIndex (monthIndex c.year c.month + 2),
        monthOfIndex (monthIndex c.year c.month + 2),
        daysInMonth (yearOfIndex (monthIndex c.year c.month + 2))
          (monthOfIndex (monthIndex c.year c.month + 2))⟩⟩ := by
  have hb : (1 ≤ c.month ∧ c.month ≤ 12) := by
    simp only [NaiveDate.isValid, Bool.and_eq_true, decide_eq_true_eq] at hv
    exact ⟨hv.1.1.1.2, hv.1.1.2⟩
  unfold DateRange.five_month_span
  by_cases hm2 : c.month ≤ 2
  · have hys : yearOfIndex (monthIndex c.year c.month - 2) = c.year - 1 := by
      unfold yearOfIndex monthIndex; omega
    have hms : monthOfIndex (monthIndex c.year c.month - 2) = c.month + 10 := by
      unfold monthOfIndex monthIndex; omega
    have hye : yearOfIndex (monthIndex c.year c.month + 2) = c.year := by
      unfold yearOfIndex monthIndex; omega
    have hme : monthOfIndex (monthIndex c.year c.month + 2) = c.month + 2 := by
      unfold monthOfIndex monthIndex; omega
    have hval : (NaiveDate.mk (c.year - 1) (c.month + 10) 1).isValid = true := by
      simp only [NaiveDate.isValid, Bool.and_eq_true, decide_eq_true_eq]
      refine ⟨⟨⟨⟨⟨?_, ?_⟩, by omega⟩, by omega⟩, by norm_num⟩,
        daysInMonth_pos (c.year - 1) (c.month + 10)⟩
      · simp only [minYear] at hy1 ⊢; omega
      · simp only [maxYear] at hy2 ⊢; omega
    rw [if_pos hm2]
    simp only [from_ymd_opt, hval, if_true]
    rw [if_neg (by omega)]
    rw [last_day_of_month_eq c.year (c.month + 2) (by omega) (by omega) (by omega)
      (by omega) (fun h12 => hy2)]
    rw [hys, hms, hye, hme]
  · have hys : yearOfIndex (monthIndex c.year c.month - 2) = c.year := by
      unfold yearOfIndex monthIndex; omega
    have hms : monthOfIndex (monthIndex c.year c.month - 2) = c.month - 2 := by
      unfold monthOfIndex monthIndex; omega
    have hval : (NaiveDate.mk c.year (c.month - 2) 1).isValid = true := by
      simp only [NaiveDate.isValid, Bool.and_eq_true, decide_eq_true_eq]
      refine ⟨⟨⟨⟨⟨?_, ?_⟩, by omega⟩, by omega⟩, by norm_num⟩,
        daysInMonth_pos c.year (c.month - 2)⟩
      · simp only [minYear] at hy1 ⊢; omega
      · simp only [maxYear] at hy2 ⊢; omega
    rw [if_neg hm2]
    simp only [from_ymd_opt, hval, if_true]
    by_cases hm11 : 11 ≤ c.month
    · have hye : yearOfIndex (monthIndex c.year c.month + 2) = c.year + 1 := by
        unfold yearOfIndex monthIndex; omega
      have hme : monthOfIndex (monthIndex c.year c.month + 2) = c.month - 10 := by
        unfold monthOfIndex monthIndex; omega
      rw [if_pos hm11]
      rw [last_day_of_month_eq (c.year + 1) (c.month - 10) (by omega) (by omega)
        (by simp only [minYear] at hy1 ⊢; omega) (by simp only [maxYear] at hy2 ⊢; omega)
        (by omega)]
      rw [hys, hms, hye, hme]
    · have hye : yearOfIndex (monthIndex c.year c.month + 2) = c.year := by
        unfold yearOfIndex monthIndex; omega
      have hme : monthOfIndex (monthIndex c.year c.month + 2) = c.month + 2 := by
        unfold monthOfIndex monthIndex; omega
      rw [if_neg hm11]
      rw [last_day_of_month_eq c.year (c.month + 2) (by omega) (by omega) (by omega)
        (by omega) (fun _ => hy2)]
      rw [hys, hms, hye, hme]

/-- Witness for C9 at the two scenario dates: centred on 2025-06-15 the span
is [2025-04-01, 2025-08-31]; centred on 2025-12-15 it crosses the year
boundary to [2025-10-01, 2026-02-28]. -/
theorem C9_witness :
    (⟨2025, 6, 15⟩ : NaiveDate).isValid = true ∧
    DateRange.five_month_span ⟨2025, 6, 15⟩ = some ⟨⟨2025, 4, 1⟩, ⟨2025, 8, 31⟩⟩ ∧
    (⟨2025, 12, 15⟩ : NaiveDate).isValid = true ∧
    DateRange.five_month_span ⟨2025, 12, 15⟩ = some ⟨⟨2025, 10, 1⟩, ⟨2026, 2, 28⟩⟩ :=
  ⟨by decide,
   (C9_five_month_span ⟨2025, 6, 15⟩ (by decide) (by decide) (by decide)).trans (by decide),
   by decide,
   (C9_five_month_span ⟨2025, 12, 15⟩ (by decide) (by decide) (by decide)).trans (by decide)⟩

end Oxidate
